import Mathlib

/-!
# minui/graphics.c : text measurement, font decoding and double buffering

A shallow embedding of `src/minui/graphics.c`.

Conventions of the embedding

* `unsigned` values are natural numbers below `UINT_MOD = 2^32`; every
  arithmetic operation of the C source on them is followed by `% UINT_MOD`.
* `int` values are integers; a conversion from `unsigned` to `int` is
  `to_int`, a conversion from `int` (or `char`) to `unsigned` is
  `to_unsigned`.
* a `char` is the integer value it holds (`-128..127` where `char` is signed,
  `0..255` where it is unsigned); a C string is the list of its characters, and
  the loops stop at the first `0` or at the end of the list (the terminator).
* memory blocks are lists of bytes; an access outside a block, and a
  dereference of a null pointer, make the operation return `none`.
* the rasteriser (`GGLContext`) is outside the file: a context is the list of
  calls that were issued to it, oldest first.
-/

set_option maxRecDepth 100000

namespace Minui

/-! ## Machine arithmetic -/

/-- The number of values of a 32-bit `unsigned`. -/
def UINT_MOD : Nat := 4294967296

/-- Conversion of an `int` or `char` value to `unsigned`. -/
def to_unsigned (z : Int) : Nat := (z % 4294967296).toNat

/-- Conversion of an `unsigned` value to `int` (two's complement). -/
def to_int (u : Nat) : Int :=
  if u % UINT_MOD < 2147483648 then ((u % UINT_MOD : Nat) : Int)
  else ((u % UINT_MOD : Nat) : Int) - 4294967296

/-- Unsigned subtraction `a - b`. -/
def usub (a b : Nat) : Nat := (a % UINT_MOD + UINT_MOD - b % UINT_MOD) % UINT_MOD

/-- Unsigned addition `a + b`. -/
def uadd (a b : Nat) : Nat := (a + b) % UINT_MOD

/-- Unsigned multiplication `a * b`. -/
def umul (a b : Nat) : Nat := (a * b) % UINT_MOD

/-- The value of an `int` expression whose mathematical value is `z`, wrapped to 32 bits. -/
def wrap_int (z : Int) : Int := to_int (to_unsigned z)

/-! ## Surfaces and fonts -/

/-- Pixel formats used by the file. -/
inductive GGLPixelFormat where
  | GGL_PIXEL_FORMAT_NONE
  | GGL_PIXEL_FORMAT_RGB_565
  | GGL_PIXEL_FORMAT_A_8
  deriving DecidableEq, Repr

/-- A `GGLSurface`; `data` is the block the pointer refers to. -/
structure GGLSurface where
  width : Nat
  height : Nat
  stride : Nat
  data : List Nat
  format : GGLPixelFormat
  deriving DecidableEq, Repr

/-- A `GRFont`; `offset` is the 97-entry table (indices above 96 are not used). -/
structure GRFont where
  texture : GGLSurface
  offset : Nat → Nat
  cheight : Nat
  ascent : Nat

/-! ## The rasteriser interface -/

/-- The pixelflinger constants the file passes to the rasteriser. -/
inductive GGLenum where
  | GGL_TEXTURE_ENV
  | GGL_TEXTURE_ENV_MODE
  | GGL_REPLACE
  | GGL_MODULATE
  | GGL_S
  | GGL_T
  | GGL_TEXTURE_GEN_MODE
  | GGL_ONE_TO_ONE
  | GGL_TEXTURE_2D
  | GGL_BLEND
  | GGL_SRC_ALPHA
  | GGL_ONE_MINUS_SRC_ALPHA
  deriving DecidableEq, Repr

/-- One call through a `GGLContext` function pointer, with its arguments
(a surface pointer argument is `none` when it is null). -/
inductive GLCall where
  | bindTexture (tex : Option GGLSurface)
  | texEnvi (target pname param : GGLenum)
  | texGeni (coord pname param : GGLenum)
  | enable (cap : GGLenum)
  | disable (cap : GGLenum)
  | texCoord2i (s t : Int)
  | recti (l t r b : Int)
  | color4xv (c0 c1 c2 c3 : Int)
  | colorBuffer (surface : GGLSurface)
  | activeTexture (tmu : Nat)
  | blendFunc (src dst : GGLenum)
  deriving DecidableEq, Repr

/-- A rasteriser context: the calls issued to it so far, oldest first. -/
abbrev GGLContext := List GLCall

/-! ## The display state (the file's static variables) -/

/-- The fields of `struct fb_var_screeninfo` the code reads or writes after the mode is set. -/
structure fb_var_screeninfo where
  xres : Nat
  yres : Nat
  xres_virtual : Nat
  yres_virtual : Nat
  yoffset : Nat
  bits_per_pixel : Nat
  deriving DecidableEq, Repr

/-- An entry of `gr_framebuffer`: a `GGLSurface` whose `data` pointer is the
byte position `data` inside the mapping of the frame buffer device. -/
structure FbSurface where
  width : Nat
  height : Nat
  stride : Nat
  data : Nat
  format : GGLPixelFormat
  deriving DecidableEq, Repr

/-- What the pointer `gr_mem_surface.data` refers to. -/
inductive PtrState where
  | null
  | live
  | freed
  deriving DecidableEq, Repr

/-- A `FBIOPUT_VSCREENINFO` request: the descriptor and the structure passed. -/
structure FbRequest where
  fd : Int
  vi : fb_var_screeninfo
  deriving DecidableEq, Repr

/-- The console modes passed to `KDSETMODE`. -/
inductive KdMode where
  | KD_TEXT
  | KD_GRAPHICS
  deriving DecidableEq, Repr

/-- The static variables of the file (`gr_framebuffer` is read at the indices 0
and 1), together with what they refer to outside it: whether the block of
`gr_mem_surface.data` is allocated (`gr_mem_ptr`), the mapping of the frame
buffer device (`fb_bits`), the requests sent to the two devices and the
descriptors passed to `close`. -/
structure GrState where
  gr_font : Option GRFont
  gr_context : Option GGLContext
  gr_framebuffer : Nat → FbSurface
  gr_mem_surface : GGLSurface
  gr_mem_ptr : PtrState
  gr_active_fb : Nat
  gr_fb_fd : Int
  gr_vt_fd : Int
  vi : fb_var_screeninfo
  fb_bits : List Nat
  fb_requests : List FbRequest
  vt_requests : List (Int × KdMode)
  closed : List Int

/-- The state at program start: every static variable holds its initialiser. -/
def gr_state_start : GrState where
  gr_font := none
  gr_context := none
  gr_framebuffer := fun _ => ⟨0, 0, 0, 0, .GGL_PIXEL_FORMAT_NONE⟩
  gr_mem_surface := ⟨0, 0, 0, [], .GGL_PIXEL_FORMAT_NONE⟩
  gr_mem_ptr := .null
  gr_active_fb := 0
  gr_fb_fd := -1
  gr_vt_fd := -1
  vi := ⟨0, 0, 0, 0, 0, 0⟩
  fb_bits := []
  fb_requests := []
  vt_requests := []
  closed := []

/-! ## Memory primitives -/

/-- The call `malloc(n)`: a block of `n` bytes whose content is whatever the heap held (`heap`). -/
def malloc (heap : Nat → Nat) (n : Nat) : List Nat := (List.range n).map heap

/-- The call `memset(p + pos, v, n)` on the block `p`. -/
def memset (p : List Nat) (pos v n : Nat) : Option (List Nat) :=
  if pos + n ≤ p.length then some (p.take pos ++ List.replicate n v ++ p.drop (pos + n)) else none

/-- The call `memcpy(dst + pos, src, n)`. -/
def memcpy (dst : List Nat) (pos : Nat) (src : List Nat) (n : Nat) : Option (List Nat) :=
  if pos + n ≤ dst.length ∧ n ≤ src.length then
    some (dst.take pos ++ src.take n ++ dst.drop (pos + n))
  else none

/-! ## Double buffering -/

/-- The byte count `vi.xres_virtual * vi.yres * vi.bits_per_pixel / 8`. -/
def frame_bytes (vi : fb_var_screeninfo) : Nat :=
  umul (umul vi.xres_virtual vi.yres) vi.bits_per_pixel / 8

/-- The function `get_memory_surface(ms)`: the surface written to `*ms`. -/
def get_memory_surface (vi : fb_var_screeninfo) (heap : Nat → Nat) : GGLSurface where
  width := vi.xres
  height := vi.yres
  stride := vi.xres_virtual
  data := malloc heap (frame_bytes vi)
  format := .GGL_PIXEL_FORMAT_RGB_565

/-- The function `set_active_framebuffer(n)`. The `FBIOPUT_VSCREENINFO` request
is recorded with the structure passed; its result is only printed by the code,
and `vi` is taken to come back from the driver as it was passed. -/
def set_active_framebuffer (st : GrState) (n : Nat) : GrState :=
  if n > 1 then st
  else
    let vi1 := { st.vi with yres_virtual := umul st.vi.yres st.vi.bits_per_pixel / 8 }
    let vi2 := { vi1 with yoffset := umul n vi1.yres }
    { st with vi := vi2, fb_requests := st.fb_requests ++ [⟨st.gr_fb_fd, vi2⟩] }

/-- The function `gr_get_surface(&surface)`: the return value and the surface
stored (the `malloc` of the descriptor is taken to succeed). Copying one byte or
more from a composition surface that is not allocated has no defined result. -/
def gr_get_surface (st : GrState) (heap : Nat → Nat) : Option (Int × GGLSurface) :=
  let ms := get_memory_surface st.vi heap
  let n := umul (umul st.vi.xres st.vi.yres) st.vi.bits_per_pixel / 8
  if n ≠ 0 ∧ st.gr_mem_ptr ≠ .live then none
  else
    match memcpy ms.data 0 st.gr_mem_surface.data n with
    | none => none
    | some d => some (0, { ms with data := d })

/-- The function `gr_exit()`; `free` of a null pointer does nothing, `free` of a
block already freed has no defined result. `gr_context` is not touched. -/
def gr_exit (st : GrState) : Option GrState :=
  if st.gr_mem_ptr = .freed then none
  else
    some { st with
      closed := st.closed ++ [st.gr_fb_fd, st.gr_vt_fd]
      gr_fb_fd := -1
      gr_mem_ptr := if st.gr_mem_ptr = .live then .freed else st.gr_mem_ptr
      vt_requests := st.vt_requests ++ [(st.gr_vt_fd, .KD_TEXT)]
      gr_vt_fd := -1 }

/-! ## Drawing -/

/-- The function `gr_color(r, g, b, a)`; the arguments are `unsigned char`. -/
def gr_color (st : GrState) (r g b a : Nat) : Option GrState :=
  match st.gr_context with
  | none => none
  | some gl =>
    let c := fun (v : Nat) => (((((v % 256) <<< 8) ||| (v % 256)) + 1 : Nat) : Int)
    some { st with gr_context := some (gl ++ [.color4xv (c r) (c g) (c b) (c a)]) }

/-- The function `gr_fill(x, y, w, h)`. -/
def gr_fill (st : GrState) (x y w h : Int) : Option GrState :=
  match st.gr_context with
  | none => none
  | some gl =>
    some { st with gr_context := some (gl ++
      [.disable .GGL_TEXTURE_2D, .recti x y (wrap_int (x + w)) (wrap_int (y + h))]) }

/-- The function `gr_blit(source, sx, sy, w, h, dx, dy)`. -/
def gr_blit (st : GrState) (source : Option GGLSurface) (sx sy w h dx dy : Int) : Option GrState :=
  match st.gr_context with
  | none => some st
  | some gl =>
    some { st with gr_context := some (gl ++
      [.bindTexture source,
       .texEnvi .GGL_TEXTURE_ENV .GGL_TEXTURE_ENV_MODE .GGL_REPLACE,
       .texGeni .GGL_S .GGL_TEXTURE_GEN_MODE .GGL_ONE_TO_ONE,
       .texGeni .GGL_T .GGL_TEXTURE_GEN_MODE .GGL_ONE_TO_ONE,
       .enable .GGL_TEXTURE_2D,
       .texCoord2i (wrap_int (sx - dx)) (wrap_int (sy - dy)),
       .recti dx dy (wrap_int (dx + w)) (wrap_int (dy + h))]) }

/-- The function `gr_watermark(source, sx, sy, w, h, dx, dy)`. -/
def gr_watermark (st : GrState) (source : Option GGLSurface) (sx sy w h dx dy : Int) :
    Option GrState :=
  match st.gr_context with
  | none => some st
  | some gl =>
    some { st with gr_context := some (gl ++
      [.bindTexture source,
       .texEnvi .GGL_TEXTURE_ENV .GGL_TEXTURE_ENV_MODE .GGL_MODULATE,
       .texGeni .GGL_S .GGL_TEXTURE_GEN_MODE .GGL_ONE_TO_ONE,
       .texGeni .GGL_T .GGL_TEXTURE_GEN_MODE .GGL_ONE_TO_ONE,
       .enable .GGL_TEXTURE_2D,
       .texCoord2i (wrap_int (sx - dx)) (wrap_int (sy - dy)),
       .recti dx dy (wrap_int (dx + w)) (wrap_int (dy + h))]) }

/-! ## gr_measure -/

/-- The `while` loop of `gr_measure`, started with the running `total`;
`fnt` is dereferenced only for a character that has a glyph. -/
def gr_measure_loop (fnt : Option GRFont) : Int → List Int → Option Int
  | total, [] => some total
  | total, c :: s =>
    if to_unsigned c = 0 then some total
    else
      let off := usub (to_unsigned c) 32
      if off < 96 then
        match fnt with
        | none => none
        | some f =>
          gr_measure_loop fnt
            (to_int (uadd (to_unsigned total) (usub (f.offset (off + 1)) (f.offset off)))) s
      else gr_measure_loop fnt total s

/-- The function `gr_measure(s, font)`; a null `font` selects `gr_font`. -/
def gr_measure (st : GrState) (s : List Int) (font : Option GRFont) : Option Int :=
  gr_measure_loop (match font with | some f => some f | none => st.gr_font) 0 s

/-! ## gr_text -/

/-- The `while` loop of `gr_text` from pen position `x`, on the context `gl`. -/
def gr_text_loop (font : GRFont) (y : Int) : Int → List Int → GGLContext → Int × GGLContext
  | x, [], gl => (x, gl)
  | x, c :: s, gl =>
    if to_unsigned c = 0 then (x, gl)
    else
      let off := usub (to_unsigned c) 32
      if off < 96 then
        let cwidth := usub (font.offset (off + 1)) (font.offset off)
        gr_text_loop font y (to_int (uadd (to_unsigned x) cwidth)) s
          (gl ++ [.texCoord2i (to_int (usub (font.offset off) (to_unsigned x))) (wrap_int (0 - y)),
                  .recti x y (to_int (uadd (to_unsigned x) cwidth))
                    (to_int (uadd (to_unsigned y) font.cheight))])
      else gr_text_loop font y (to_int (uadd (to_unsigned x) 0)) s gl

/-- The five calls `gr_text` issues before its loop. -/
def gr_text_setup (font : GRFont) : List GLCall :=
  [.bindTexture (some font.texture),
   .texEnvi .GGL_TEXTURE_ENV .GGL_TEXTURE_ENV_MODE .GGL_REPLACE,
   .texGeni .GGL_S .GGL_TEXTURE_GEN_MODE .GGL_ONE_TO_ONE,
   .texGeni .GGL_T .GGL_TEXTURE_GEN_MODE .GGL_ONE_TO_ONE,
   .enable .GGL_TEXTURE_2D]

/-- The `while` loop of `gr_text` when `font` is null: the font is dereferenced,
with no defined result, at the first character that has a glyph; the other
characters advance the pen by 0. -/
def gr_text_loop_null : Int → List Int → Option Int
  | x, [] => some x
  | x, c :: s =>
    if to_unsigned c = 0 then some x
    else if usub (to_unsigned c) 32 < 96 then none
    else gr_text_loop_null (to_int (uadd (to_unsigned x) 0)) s

/-- The function `gr_text(x, y, s, pFont)`: the value returned and the state left.
A null context is dereferenced at the first call. With no font at all the
texture bound is the null pointer (`texture` is the first member of `GRFont`)
and the loop is `gr_text_loop_null`. -/
def gr_text (st : GrState) (x y : Int) (s : List Int) (pFont : Option GRFont) :
    Option (Int × GrState) :=
  match st.gr_context, (match pFont with | some f => some f | none => st.gr_font) with
  | none, _ => none
  | some gl, none =>
    (gr_text_loop_null x s).map (fun r => (r, { st with gr_context := some (gl ++
      [.bindTexture none,
       .texEnvi .GGL_TEXTURE_ENV .GGL_TEXTURE_ENV_MODE .GGL_REPLACE,
       .texGeni .GGL_S .GGL_TEXTURE_GEN_MODE .GGL_ONE_TO_ONE,
       .texGeni .GGL_T .GGL_TEXTURE_GEN_MODE .GGL_ONE_TO_ONE,
       .enable .GGL_TEXTURE_2D]) }))
  | some gl, some font =>
    let r := gr_text_loop font y x s (gl ++ gr_text_setup font)
    some (r.1, { st with gr_context := some r.2 })

/-! ## The embedded font -/

/-- The structure `font` of `font_10x18.h` (not part of the sources at hand):
the fields `gr_init_font` reads. `rundata` is the array up to its end. -/
structure EmbeddedFont where
  width : Nat
  height : Nat
  cwidth : Nat
  cheight : Nat
  rundata : List Nat

/-- The run-length loop of `gr_init_font`: `inp` is what `in` points at, `bits`
the block allocated for the bitmap and `rle` the write position in it. -/
def rle_loop : List Nat → List Nat → Nat → Option (List Nat)
  | [], _, _ => none
  | data :: inp, bits, rle =>
    if data = 0 then some bits
    else
      match memset bits rle (if data &&& 0x80 ≠ 0 then 255 else 0) (data &&& 0x7f) with
      | none => none
      | some bits1 => rle_loop inp bits1 (rle + (data &&& 0x7f))

/-- The function `gr_init_font()`: the font stored in `gr_font`. -/
def gr_init_font (font : EmbeddedFont) (heap : Nat → Nat) : Option GRFont :=
  let width := font.width
  let height := font.height
  match rle_loop font.rundata (malloc heap (umul width height)) 0 with
  | none => none
  | some bits =>
    some {
      texture := ⟨width, height, width, bits, .GGL_PIXEL_FORMAT_A_8⟩
      offset := fun element => if element < 97 then umul element font.cwidth else 0
      cheight := height
      ascent := usub height 2 }

/-! ## Fonts loaded from a file -/

/-- The call `read(fd, buf, n)` on a regular file of which `fd` are the bytes
still ahead: the bytes delivered (at most `n`) and the bytes left. -/
def read (fd : List Nat) (n : Nat) : List Nat × List Nat := (fd.take n, fd.drop n)

/-- The content of a buffer that held `old` after `read` stored `got` at its start. -/
def store (got old : List Nat) : List Nat := got ++ old.drop got.length

/-- The four bytes of an `unsigned` in memory (little-endian host). -/
def le_bytes (v : Nat) : List Nat := [v % 256, v / 256 % 256, v / 65536 % 256, v / 16777216 % 256]

/-- The `unsigned` held by the four bytes at position `k` of `buf` (little-endian host). -/
def u32_at (buf : List Nat) (k : Nat) : Nat :=
  buf.getD k 0 % 256 + 256 * (buf.getD (k + 1) 0 % 256) + 65536 * (buf.getD (k + 2) 0 % 256)
    + 16777216 * (buf.getD (k + 3) 0 % 256)

/-- The values the locals `width`, `height` and `data` of `gr_loadFont` hold
before anything is stored in them (they are declared without initialiser). -/
structure LoadLocals where
  width : Nat
  height : Nat
  data : Nat

/-- The `for (bit ...)` loop of `gr_loadFont` with `k` rounds left, `bit = 8 - k`;
`total` is `width * height`. Gives the bitmap and `pos` when the loop is left. -/
def unpack_for (total data : Nat) : Nat → Nat → List Nat → Nat → Option (List Nat × Nat)
  | 0, _, bits, pos => some (bits, pos)
  | k + 1, bit, bits, pos =>
    if pos < bits.length then
      let bits1 := bits.set pos (if data &&& (1 <<< (7 - bit)) ≠ 0 then 255 else 0)
      let pos1 := uadd pos 1
      if pos1 = total then some (bits1, pos1)
      else unpack_for total data k (bit + 1) bits1 pos1
    else none

/-- The `while (pos < width * height)` loop of `gr_loadFont`, for at most `fuel`
rounds (`none` when the rounds do not suffice or a store leaves the bitmap). -/
def unpack_while (total : Nat) : Nat → List Nat → Nat → List Nat → Nat → Option (List Nat)
  | 0, _, _, bits, pos => if pos < total then none else some bits
  | fuel + 1, fd, data, bits, pos =>
    if pos < total then
      let data1 := match (read fd 1).1 with
        | b :: _ => b
        | [] => data
      match unpack_for total data1 8 0 bits pos with
      | none => none
      | some (bits1, pos1) => unpack_while total fuel (read fd 1).2 data1 bits1 pos1
    else some bits

/-- What `gr_loadFont` returns (`font = none` is `NULL`) and how many blocks it allocated. -/
structure LoadResult where
  font : Option GRFont
  allocations : Nat

/-- The function `gr_loadFont(fontName)` on the file system `fs` (a path opens
when `fs` gives its content); `malloc_ok n` tells whether `malloc(n)` of the
bitmap succeeds (the `calloc` of the fixed-size font record is taken to
succeed). `none`, no defined result: the name does not fit `tmp[128]`, or the
`malloc` of one byte or more failed and `memset` writes through the null
pointer. The loop gets `width * height` rounds; each round advances `pos`. -/
def gr_loadFont (fs : String → Option (List Nat)) (malloc_ok : Nat → Bool) (lv : LoadLocals)
    (fontName : String) : Option LoadResult :=
  let opened : Option (Option (List Nat)) :=
    match fs fontName with
    | some fd => some (some fd)
    | none =>
      if fontName.utf8ByteSize + 16 ≤ 128 then some (fs ("/res/fonts/" ++ fontName ++ ".dat"))
      else none
  match opened with
  | none => none
  | some none => some ⟨none, 0⟩
  | some (some fd) =>
    let width := u32_at (store (read fd 4).1 (le_bytes lv.width)) 0
    let fd1 := (read fd 4).2
    let height := u32_at (store (read fd1 4).1 (le_bytes lv.height)) 0
    let fd2 := (read fd1 4).2
    let offset_bytes := store (read fd2 (4 * 96)).1 (List.replicate (4 * 97) 0)
    let fd3 := (read fd2 (4 * 96)).2
    let total := umul width height
    if total ≠ 0 ∧ malloc_ok total = false then none
    else
      match unpack_while total total fd3 lv.data (List.replicate total 0) 0 with
      | none => none
      | some bits =>
        some ⟨some {
          texture := ⟨width, height, width, bits, .GGL_PIXEL_FORMAT_A_8⟩
          offset := fun i =>
            if i = 96 then width else if i < 96 then u32_at offset_bytes (4 * i) else 0
          cheight := height
          ascent := usub height 2 }, 2⟩

/-! ## Initialisation -/

/-- How the first part of `get_framebuffer` (open, the mode requests, `mmap`)
ends: it returns -1 and leaves `vi` as given, or it has the descriptor `fd`,
the mode `vi` read back from the device and the mapping `bits`. -/
inductive FbProbe where
  | failed (vi : fb_var_screeninfo)
  | mapped (fd : Int) (vi : fb_var_screeninfo) (bits : List Nat)

/-- What `gr_init` finds outside the file: the embedded font, the content of
fresh heap blocks, the console (`none` when `/dev/tty0` does not open, otherwise
its descriptor and whether `KDSETMODE` succeeds) and the frame buffer device. -/
structure InitEnv where
  font : EmbeddedFont
  heap : Nat → Nat
  tty0 : Option (Int × Bool)
  fb0 : FbProbe

/-- The part of `get_framebuffer` after `mmap`: both entries of `fb` are filled
and both buffers cleared. Gives the two entries and the mapping. -/
def get_framebuffer_fill (vi : fb_var_screeninfo) (bits : List Nat) :
    Option ((Nat → FbSurface) × List Nat) :=
  let n := umul (umul vi.yres vi.xres_virtual) vi.bits_per_pixel / 8
  match memset bits 0 0 n with
  | none => none
  | some bits1 =>
    match memset bits1 n 0 n with
    | none => none
    | some bits2 =>
      some (fun k =>
        if k = 0 then ⟨vi.xres, vi.yres, vi.xres_virtual, 0, .GGL_PIXEL_FORMAT_RGB_565⟩
        else ⟨vi.xres, vi.yres, vi.xres_virtual, n, .GGL_PIXEL_FORMAT_RGB_565⟩, bits2)

/-- The function `gr_init()`: the value returned and the state left; `gglInit`
stores a context to which no call has been issued. -/
def gr_init (env : InitEnv) (st : GrState) : Option (Int × GrState) :=
  match gr_init_font env.font env.heap with
  | none => none
  | some f =>
    let st1 := { st with gr_context := some [], gr_font := some f }
    let st2 : GrState :=
      match env.tty0 with
      | none => { st1 with gr_vt_fd := -1 }
      | some (fd, _) =>
        { st1 with gr_vt_fd := fd, vt_requests := st1.vt_requests ++ [(fd, .KD_GRAPHICS)] }
    if env.tty0.map (fun t => t.2) = some false then
      (gr_exit st2).map (fun s => (-1, s))
    else
      match env.fb0 with
      | .failed vi => (gr_exit { st2 with vi := vi, gr_fb_fd := -1 }).map (fun s => (-1, s))
      | .mapped fd vi bits =>
        match get_framebuffer_fill vi bits with
        | none => none
        | some (fb, bits2) =>
          let ms := get_memory_surface vi env.heap
          let st3 := { st2 with
            vi := vi, gr_framebuffer := fb, fb_bits := bits2, gr_fb_fd := fd,
            gr_mem_surface := ms, gr_mem_ptr := .live, gr_active_fb := 0 }
          let st4 := set_active_framebuffer st3 0
          some (0, { st4 with gr_context := some (
            [.colorBuffer ms, .activeTexture 0, .enable .GGL_BLEND,
             .blendFunc .GGL_SRC_ALPHA .GGL_ONE_MINUS_SRC_ALPHA]) })

/-! ## Auxiliary definitions of the statements, and example data -/

/-- The sum of the glyph widths of the characters the loops of `gr_measure` and
`gr_text` visit: those before the terminator, each with `off < 96`. -/
def run_width (f : GRFont) : List Int → Nat
  | [] => 0
  | c :: s =>
    if to_unsigned c = 0 then 0
    else if usub (to_unsigned c) 32 < 96 then
      usub (f.offset (usub (to_unsigned c) 32 + 1)) (f.offset (usub (to_unsigned c) 32))
        + run_width f s
    else run_width f s

/-- A monospaced font used in the examples: 96 cells of width 2, height 3. -/
def example_font : GRFont where
  texture := ⟨192, 3, 192, List.replicate 576 255, .GGL_PIXEL_FORMAT_A_8⟩
  offset := fun i => 2 * i
  cheight := 3
  ascent := 1

/-- The font `gr_init_font` builds from a 192 x 3 embedded font of cell width 2
whose run data are four runs of 127 and one of 68 bytes of value 255. -/
def example_font_decoded : GRFont where
  texture := ⟨192, 3, 192, List.replicate 576 255, .GGL_PIXEL_FORMAT_A_8⟩
  offset := fun element => if element < 97 then umul element 2 else 0
  cheight := 3
  ascent := 1

/-- A state used in the examples: the start state with a rasteriser context bound. -/
def example_state : GrState := { gr_state_start with gr_context := some [] }

/-- The bytes the run-length stream `runs` stands for. -/
def rle_expand (runs : List Nat) : List Nat :=
  runs.flatMap (fun b => List.replicate (b &&& 0x7f) (if b &&& 0x80 ≠ 0 then 255 else 0))

/-- The byte stored for bit number `b` (counted from the most significant) of `data`. -/
def bit_value (data b : Nat) : Nat := if data &&& (1 <<< (7 - b)) ≠ 0 then 255 else 0

/-- A font file of width 10 and height 18: the header, 96 zero offsets and 23 bitmap bytes. -/
def example_font_file : List Nat :=
  le_bytes 10 ++ le_bytes 18 ++ List.replicate 384 0 ++ List.replicate 23 170

/-- A file system holding `example_font_file` in the fonts directory only. -/
def example_fs : String → Option (List Nat) :=
  fun path => if path = "/res/fonts/tiny.dat" then some example_font_file else none

/-- A file system whose only file, `short`, holds eight zero bytes: a width and a
height of 0 and none of the 96 offsets. -/
def short_header_fs : String → Option (List Nat) :=
  fun path => if path = "short" then some [0, 0, 0, 0, 0, 0, 0, 0] else none

/-- A font file of width 1 and height 0 whose first two offsets are 5 and 0. -/
def decreasing_offsets_file : List Nat :=
  le_bytes 1 ++ le_bytes 0 ++ le_bytes 5 ++ List.replicate 380 0

/-- A file system whose only file, `dec`, is `decreasing_offsets_file`. -/
def decreasing_offsets_fs : String → Option (List Nat) :=
  fun path => if path = "dec" then some decreasing_offsets_file else none

/-- The facts about the display state that `gr_init` establishes when it returns
0 and that the operations rely on: the active index is 0 or 1, the composition
surface is allocated with one frame of bytes, and the two physical buffers are
the first and second frame of the mapping. -/
def Initialised (st : GrState) : Prop :=
  st.gr_active_fb ≤ 1 ∧ st.gr_mem_ptr = .live
    ∧ (st.gr_framebuffer 0).data = 0 ∧ (st.gr_framebuffer 1).data = frame_bytes st.vi
    ∧ 2 * frame_bytes st.vi ≤ st.fb_bits.length
    ∧ st.gr_mem_surface.data.length = frame_bytes st.vi
    ∧ st.vi.yres < UINT_MOD

instance (st : GrState) : Decidable (Initialised st) := by
  unfold Initialised
  infer_instance

/-- An initialised display state used in the examples: a 2 x 1 screen of 16-bit
pixels (4 bytes a frame), an 8-byte mapping and a drawn composition surface. -/
def example_display : GrState :=
  { gr_state_start with
    gr_context := some []
    gr_framebuffer := fun k =>
      if k = 0 then ⟨2, 1, 2, 0, .GGL_PIXEL_FORMAT_RGB_565⟩
      else ⟨2, 1, 2, 4, .GGL_PIXEL_FORMAT_RGB_565⟩
    gr_mem_surface := ⟨2, 1, 2, [1, 2, 3, 4], .GGL_PIXEL_FORMAT_RGB_565⟩
    gr_mem_ptr := .live
    gr_fb_fd := 3
    vi := ⟨2, 1, 2, 1, 0, 16⟩
    fb_bits := [0, 0, 0, 0, 0, 0, 0, 0] }

/-- A display state whose rows are padded: `xres = 1`, `xres_virtual = 2`, one row
of 16-bit pixels, so that a frame has 4 bytes of which 2 belong to the visible
pixel. -/
def padded_display : GrState :=
  { example_display with
    gr_framebuffer := fun k =>
      if k = 0 then ⟨1, 1, 2, 0, .GGL_PIXEL_FORMAT_RGB_565⟩
      else ⟨1, 1, 2, 4, .GGL_PIXEL_FORMAT_RGB_565⟩
    gr_mem_surface := ⟨1, 1, 2, [1, 2, 3, 4], .GGL_PIXEL_FORMAT_RGB_565⟩
    vi := ⟨1, 1, 2, 1, 0, 16⟩ }

/-- An environment in which `gr_init` succeeds: a 1 x 1 embedded font, no console,
and a frame buffer device with a 2 x 1 mode of 16-bit pixels and 8 mapped bytes. -/
def example_env : InitEnv where
  font := ⟨1, 1, 1, 1, [0x81, 0]⟩
  heap := fun _ => 0
  tty0 := none
  fb0 := .mapped 3 ⟨2, 1, 2, 1, 0, 16⟩ [9, 9, 9, 9, 9, 9, 9, 9]

/-! ## Facts of the machine arithmetic -/

theorem to_unsigned_to_int (u : Nat) : to_unsigned (to_int u) = u % UINT_MOD := by
  unfold to_unsigned to_int UINT_MOD
  split <;> omega

theorem to_int_mod (u : Nat) : to_int (u % UINT_MOD) = to_int u := by
  unfold to_int
  rw [Nat.mod_mod]

theorem wrap_int_of_range (x : Int) (h : -2147483648 ≤ x ∧ x < 2147483648) : wrap_int x = x := by
  unfold wrap_int to_unsigned to_int UINT_MOD
  split <;> omega

theorem to_unsigned_add_to_int (x : Int) (w : Nat) :
    to_unsigned (x + to_int w) = (to_unsigned x + w) % UINT_MOD := by
  unfold to_unsigned to_int UINT_MOD
  split <;> omega

/-! ## gr_measure and gr_text against the width of a run -/

theorem gr_measure_loop_run_width (f : GRFont) (s : List Int) :
    ∀ t : Nat, gr_measure_loop (some f) (to_int t) s = some (to_int ((t + run_width f s) % UINT_MOD)) := by
  induction s with
  | nil => intro t; simp [gr_measure_loop, run_width, to_int_mod]
  | cons c s ih =>
    intro t
    unfold gr_measure_loop run_width
    by_cases h0 : to_unsigned c = 0
    · simp [h0, to_int_mod]
    · by_cases h1 : usub (to_unsigned c) 32 < 96
      · simp only [h0, h1, if_true, if_false, to_unsigned_to_int]
        rw [ih]
        congr 2
        unfold uadd UINT_MOD
        omega
      · simp only [h0, h1, if_false]
        exact ih t

theorem gr_text_loop_run_width (f : GRFont) (y : Int) (s : List Int) :
    ∀ (t : Nat) (gl : GGLContext),
      (gr_text_loop f y (to_int t) s gl).1 = to_int ((t + run_width f s) % UINT_MOD) := by
  induction s with
  | nil => intro t gl; simp [gr_text_loop, run_width, to_int_mod]
  | cons c s ih =>
    intro t gl
    unfold gr_text_loop run_width
    by_cases h0 : to_unsigned c = 0
    · simp [h0, to_int_mod]
    · by_cases h1 : usub (to_unsigned c) 32 < 96
      · simp only [h0, h1, if_true, if_false, to_unsigned_to_int]
        rw [ih]
        congr 1
        unfold uadd UINT_MOD
        omega
      · simp only [h0, h1, if_false, to_unsigned_to_int]
        rw [ih]
        congr 1
        unfold uadd UINT_MOD
        omega

theorem run_width_printable (f : GRFont) (s : List Int) (h : ∀ c ∈ s, 32 ≤ c ∧ c ≤ 126) :
    run_width f s
      = (s.map (fun c => usub (f.offset ((c - 32).toNat + 1)) (f.offset (c - 32).toNat))).sum := by
  induction s with
  | nil => rfl
  | cons c s ih =>
    have hc := h c (List.mem_cons_self c s)
    have hu : to_unsigned c = c.toNat := by unfold to_unsigned; omega
    have hoff : usub (to_unsigned c) 32 = (c - 32).toNat := by
      rw [hu]; unfold usub UINT_MOD; omega
    have h0 : to_unsigned c ≠ 0 := by rw [hu]; omega
    have h1 : (c - 32).toNat < 96 := by omega
    unfold run_width
    rw [hoff]
    simp only [h0, h1, if_true, if_false, List.map_cons, List.sum_cons]
    rw [ih (fun d hd => h d (List.mem_cons_of_mem c hd))]

/-! ## C1 -/

/-- C1: for every font and every string whose characters all have codes in
32..126, `gr_measure` returns the sum, over the characters in order, of
`offset[c-32+1] - offset[c-32]`, the subtractions and the sum in 32-bit
arithmetic and the result read as an `int`; the empty string measures 0. -/
theorem gr_measure_printable_sum (st : GrState) (f : GRFont) (s : List Int)
    (h : ∀ c ∈ s, 32 ≤ c ∧ c ≤ 126) :
    gr_measure st s (some f)
        = some (to_int ((s.map (fun c =>
            usub (f.offset ((c - 32).toNat + 1)) (f.offset (c - 32).toNat))).sum % UINT_MOD))
      ∧ gr_measure st [] (some f) = some 0 := by
  constructor
  · have := gr_measure_loop_run_width f s 0
    rw [run_width_printable f s h] at this
    simpa [gr_measure, to_int] using this
  · rfl

theorem gr_measure_printable_sum_witness :
    (∀ c ∈ ([72, 105] : List Int), 32 ≤ c ∧ c ≤ 126)
      ∧ gr_measure gr_state_start [72, 105] (some example_font) = some 4 :=
  ⟨by decide, (gr_measure_printable_sum gr_state_start example_font [72, 105] (by decide)).1.trans
    (by decide)⟩

/-! ## C2 -/

/-- C2: with a rasteriser context bound, for every pen position `(x, y)` (`x` an
`int`), every string and every font, `gr_text` returns `x + gr_measure(s, font)`
computed in 32-bit `int` arithmetic, whatever characters the string contains. -/
theorem gr_text_returns_pen_plus_measure (st : GrState) (gl : GGLContext) (f : GRFont)
    (x y : Int) (s : List Int) (hgl : st.gr_context = some gl)
    (hx : -2147483648 ≤ x ∧ x < 2147483648) :
    ∃ m st1, gr_measure st s (some f) = some m
      ∧ gr_text st x y s (some f) = some (wrap_int (x + m), st1) := by
  refine ⟨to_int ((0 + run_width f s) % UINT_MOD),
    { st with gr_context := some (gr_text_loop f y x s (gl ++ gr_text_setup f)).2 }, ?_, ?_⟩
  · exact gr_measure_loop_run_width f s 0
  · have hxw : to_int (to_unsigned x) = x := wrap_int_of_range x hx
    have h1 := gr_text_loop_run_width f y s (to_unsigned x) (gl ++ gr_text_setup f)
    rw [hxw] at h1
    have h2 : wrap_int (x + to_int ((0 + run_width f s) % UINT_MOD))
        = (gr_text_loop f y x s (gl ++ gr_text_setup f)).1 := by
      rw [h1]
      unfold wrap_int
      rw [to_unsigned_add_to_int]
      congr 1
      unfold UINT_MOD
      omega
    simp only [gr_text, hgl]
    rw [h2]

theorem gr_text_returns_pen_plus_measure_witness :
    example_state.gr_context = some []
      ∧ (-2147483648 ≤ (7 : Int) ∧ (7 : Int) < 2147483648)
      ∧ ∃ m st1, gr_measure example_state [72, 1, 105] (some example_font) = some m
          ∧ gr_text example_state 7 0 [72, 1, 105] (some example_font)
              = some (wrap_int (7 + m), st1) :=
  ⟨rfl, by decide,
    gr_text_returns_pen_plus_measure example_state [] example_font 7 0 [72, 1, 105] rfl
      (by decide)⟩

/-! ## C3 -/

/-- C3, as stated, fails at code 127: in the example font (`offset[95] = 190`,
`offset[96] = 192`) the one-character string of code 127 measures 2, not 0, and
`gr_text` at pen `(0, 0)` issues a texture-coordinate call and a rectangle call
for it and returns 2. -/
theorem code_127_is_measured_and_drawn :
    gr_measure example_state [127] (some example_font) = some 2
      ∧ (gr_text example_state 0 0 [127] (some example_font)).map
          (fun r => (r.1, r.2.gr_context))
        = some (2, some (gr_text_setup example_font
            ++ [.texCoord2i 190 0, .recti 0 0 2 3])) := by
  constructor
  · decide
  · rfl

/-- C3, amended: at any point of the loops (running `total`, pen `x` an `int`,
calls `gl` issued so far, characters `rest` still to come), a character of code
32 adds `offset[1] - offset[0]` to the measure and is drawn with texture
coordinate `offset[0] - x` (source column `offset[0]`) in a rectangle of that
width; a character of code 127 is the 96th glyph, of width
`offset[96] - offset[95]` and source column `offset[95]`; a character of any
other code outside 32..127 (negative where `char` is signed, 1..31, 128..255)
adds nothing to the measure, issues no call and leaves the pen where it is. -/
theorem glyph_code_boundaries (f : GRFont) (total x y : Int) (rest : List Int)
    (gl : GGLContext) (c : Int)
    (hx : -2147483648 ≤ x ∧ x < 2147483648)
    (hc : (-128 ≤ c ∧ c < 32 ∧ c ≠ 0) ∨ (127 < c ∧ c ≤ 255)) :
    gr_measure_loop (some f) total (32 :: rest)
        = gr_measure_loop (some f)
            (to_int (uadd (to_unsigned total) (usub (f.offset 1) (f.offset 0)))) rest
      ∧ gr_text_loop f y x (32 :: rest) gl
        = gr_text_loop f y (to_int (uadd (to_unsigned x) (usub (f.offset 1) (f.offset 0)))) rest
            (gl ++ [.texCoord2i (to_int (usub (f.offset 0) (to_unsigned x))) (wrap_int (0 - y)),
                    .recti x y (to_int (uadd (to_unsigned x) (usub (f.offset 1) (f.offset 0))))
                      (to_int (uadd (to_unsigned y) f.cheight))])
      ∧ gr_measure_loop (some f) total (127 :: rest)
        = gr_measure_loop (some f)
            (to_int (uadd (to_unsigned total) (usub (f.offset 96) (f.offset 95)))) rest
      ∧ gr_text_loop f y x (127 :: rest) gl
        = gr_text_loop f y (to_int (uadd (to_unsigned x) (usub (f.offset 96) (f.offset 95)))) rest
            (gl ++ [.texCoord2i (to_int (usub (f.offset 95) (to_unsigned x))) (wrap_int (0 - y)),
                    .recti x y (to_int (uadd (to_unsigned x) (usub (f.offset 96) (f.offset 95))))
                      (to_int (uadd (to_unsigned y) f.cheight))])
      ∧ gr_measure_loop (some f) total (c :: rest) = gr_measure_loop (some f) total rest
      ∧ gr_text_loop f y x (c :: rest) gl = gr_text_loop f y x rest gl := by
  have e32 : to_unsigned 32 = 32 := by decide
  have e127 : to_unsigned 127 = 127 := by decide
  have o32 : usub 32 32 = 0 := by decide
  have o127 : usub 127 32 = 95 := by decide
  have hc0 : to_unsigned c ≠ 0 := by
    unfold to_unsigned; omega
  have hc1 : ¬ usub (to_unsigned c) 32 < 96 := by
    unfold usub to_unsigned UINT_MOD; omega
  have hpen : to_int (uadd (to_unsigned x) 0) = x := by
    unfold uadd to_int to_unsigned UINT_MOD
    split <;> omega
  refine ⟨?_, ?_, ?_, ?_, ?_, ?_⟩
  · simp [gr_measure_loop, e32, o32]
  · simp [gr_text_loop, e32, o32]
  · simp [gr_measure_loop, e127, o127]
  · simp [gr_text_loop, e127, o127]
  · simp [gr_measure_loop, hc0, hc1]
  · simp [gr_text_loop, hc0, hc1, hpen]

theorem glyph_code_boundaries_witness :
    (-2147483648 ≤ (5 : Int) ∧ (5 : Int) < 2147483648)
      ∧ ((-128 ≤ (200 : Int) ∧ (200 : Int) < 32 ∧ (200 : Int) ≠ 0)
          ∨ (127 < (200 : Int) ∧ (200 : Int) ≤ 255))
      ∧ gr_measure_loop (some example_font) 0 [200, 65] = gr_measure_loop (some example_font) 0 [65]
      ∧ gr_text_loop example_font 0 5 [200, 65] [] = gr_text_loop example_font 0 5 [65] [] :=
  ⟨by decide, by decide,
    (glyph_code_boundaries example_font 0 5 0 [65] [] 200 (by decide) (by decide)).2.2.2.2⟩

/-! ## C5 -/

theorem splice_length (bits mid : List Nat) (pos : Nat) (h : pos + mid.length ≤ bits.length) :
    (bits.take pos ++ mid ++ bits.drop (pos + mid.length)).length = bits.length := by
  simp only [List.length_append, List.length_take, List.length_drop]
  omega

theorem splice_take (bits mid : List Nat) (pos : Nat) (h : pos + mid.length ≤ bits.length) :
    (bits.take pos ++ mid ++ bits.drop (pos + mid.length)).take (pos + mid.length)
      = bits.take pos ++ mid := by
  apply List.take_left'
  simp only [List.length_append, List.length_take]
  omega

theorem splice_drop (bits mid : List Nat) (pos k : Nat) (h : pos + mid.length ≤ bits.length) :
    (bits.take pos ++ mid ++ bits.drop (pos + mid.length)).drop (pos + mid.length + k)
      = bits.drop (pos + mid.length + k) := by
  have hl : (bits.take pos ++ mid).length = pos + mid.length := by
    simp only [List.length_append, List.length_take]
    omega
  rw [← List.drop_drop, ← hl, List.drop_left, hl, List.drop_drop]

theorem rle_loop_writes (runs rest : List Nat) (hnz : ∀ b ∈ runs, b ≠ 0) :
    ∀ (bits : List Nat) (pos : Nat), pos + (rle_expand runs).length ≤ bits.length →
      rle_loop (runs ++ 0 :: rest) bits pos
        = some (bits.take pos ++ rle_expand runs ++ bits.drop (pos + (rle_expand runs).length)) := by
  induction runs with
  | nil =>
    intro bits pos _
    simp [rle_loop, rle_expand]
  | cons b runs ih =>
    intro bits pos hfit
    have hb : b ≠ 0 := hnz b (List.mem_cons_self b runs)
    have hexp : rle_expand (b :: runs)
        = List.replicate (b &&& 0x7f) (if b &&& 0x80 ≠ 0 then 255 else 0) ++ rle_expand runs := by
      simp [rle_expand, List.flatMap_cons]
    rw [hexp] at hfit ⊢
    simp only [List.length_append, List.length_replicate] at hfit
    have hm : pos + (List.replicate (b &&& 0x7f) (if b &&& 0x80 ≠ 0 then 255 else 0)).length
        ≤ bits.length := by
      simp only [List.length_replicate]; omega
    have hlen := splice_length bits _ pos hm
    have htake := splice_take bits _ pos hm
    have hdrop := splice_drop bits _ pos (rle_expand runs).length hm
    simp only [List.length_replicate] at hlen htake hdrop hm
    rw [List.cons_append, rle_loop]
    simp only [hb, if_false, memset, hm, if_true]
    rw [ih (fun c hc => hnz c (List.mem_cons_of_mem b hc)) _ _ (by rw [hlen]; omega)]
    rw [htake, hdrop]
    simp only [List.length_append, List.length_replicate, List.append_assoc, Nat.add_assoc]

/-- C5: for every run-length stream `runs ++ 0 :: rest` with no zero byte in
`runs` whose expansion fits the `width * height` bytes allocated, the decoder of
`gr_init_font` stores, from the start of the bitmap and in order, for each byte
`b` of `runs`, `b & 0x7f` bytes of value 255 when `b & 0x80` is set and of value
0 otherwise, and writes nothing else; the stream `0x85, 0` decodes to five
bytes of value 255. -/
theorem gr_init_font_decodes_runs (font : EmbeddedFont) (heap : Nat → Nat)
    (runs rest : List Nat) (hdata : font.rundata = runs ++ 0 :: rest)
    (hnz : ∀ b ∈ runs, b ≠ 0)
    (hfit : (runs.flatMap (fun b => List.replicate (b &&& 0x7f)
        (if b &&& 0x80 ≠ 0 then 255 else 0))).length ≤ umul font.width font.height) :
    (∃ g, gr_init_font font heap = some g
        ∧ g.texture.data
          = runs.flatMap (fun b => List.replicate (b &&& 0x7f) (if b &&& 0x80 ≠ 0 then 255 else 0))
            ++ (malloc heap (umul font.width font.height)).drop
                (runs.flatMap (fun b => List.replicate (b &&& 0x7f)
                  (if b &&& 0x80 ≠ 0 then 255 else 0))).length)
      ∧ (gr_init_font ⟨5, 1, 0, 0, [0x85, 0]⟩ heap).map (fun g => g.texture.data)
          = some [255, 255, 255, 255, 255] := by
  constructor
  · have hl : (malloc heap (umul font.width font.height)).length = umul font.width font.height := by
      simp [malloc]
    have h := rle_loop_writes runs rest hnz (malloc heap (umul font.width font.height)) 0
      (by rw [hl]; simpa [rle_expand] using hfit)
    simp only [rle_expand, List.take_zero, List.nil_append, Nat.zero_add] at h
    simp only [gr_init_font, hdata, h]
    exact ⟨_, rfl, rfl⟩
  · have h := rle_loop_writes [0x85] [] (by decide) (malloc heap (umul 5 1)) 0
      (by rw [show (malloc heap (umul 5 1)).length = 5 from by simp [malloc, umul, UINT_MOD]]
          decide)
    have h5 : rle_expand [0x85] = [255, 255, 255, 255, 255] := by decide
    rw [h5] at h
    simp only [gr_init_font, List.singleton_append] at h ⊢
    rw [h]
    simp [malloc, umul, UINT_MOD]

theorem gr_init_font_decodes_runs_witness :
    (⟨6, 1, 1, 1, [0x82, 0x03, 0]⟩ : EmbeddedFont).rundata = [0x82, 0x03] ++ 0 :: []
      ∧ (∀ b ∈ [0x82, 0x03], b ≠ 0)
      ∧ ∃ g, gr_init_font ⟨6, 1, 1, 1, [0x82, 0x03, 0]⟩ (fun _ => 7) = some g
          ∧ g.texture.data = [255, 255, 0, 0, 0, 7] :=
  ⟨rfl, by decide,
    (gr_init_font_decodes_runs ⟨6, 1, 1, 1, [0x82, 0x03, 0]⟩ (fun _ => 7) [0x82, 0x03] [] rfl
      (by decide) (by decide)).1⟩

/-! ## The bit unpacking loops of gr_loadFont -/

theorem unpack_for_spec (total data : Nat) (htot : total < UINT_MOD) :
    ∀ (k bit : Nat) (bits : List Nat) (pos : Nat), bits.length = total → pos < total → 0 < k →
      ∃ bits1 pos1, unpack_for total data k bit bits pos = some (bits1, pos1)
        ∧ bits1.length = total ∧ pos < pos1 ∧ pos1 ≤ total ∧ pos1 ≤ pos + k
        ∧ (pos1 = total ∨ pos1 = pos + k)
        ∧ ∀ p, bits1[p]? = if pos ≤ p ∧ p < pos1 then some (bit_value data (bit + (p - pos)))
            else bits[p]? := by
  intro k
  induction k with
  | zero => intro _ _ _ _ _ h; omega
  | succ k ih =>
    intro bit bits pos hlen hpos _
    have hadd : uadd pos 1 = pos + 1 := by
      unfold uadd; unfold UINT_MOD at *; omega
    have hin : pos < bits.length := by omega
    have hset : ∀ p, (bits.set pos (bit_value data bit))[p]?
        = if pos ≤ p ∧ p < pos + 1 then some (bit_value data (bit + (p - pos))) else bits[p]? := by
      intro p
      rw [List.getElem?_set]
      by_cases hp : pos = p
      · subst hp
        simp [hin]
      · have : ¬ (pos ≤ p ∧ p < pos + 1) := by omega
        simp [hp, this]
    unfold unpack_for
    simp only [hin, if_true, hadd]
    by_cases hend : pos + 1 = total
    · simp only [hend, if_true]
      refine ⟨_, _, rfl, by simp [hlen], by omega, by omega, by omega, Or.inl rfl, ?_⟩
      rw [← hend]
      exact hset
    · simp only [hend, if_false]
      rcases Nat.eq_zero_or_pos k with hk | hk
      · subst hk
        refine ⟨_, _, rfl, by simp [hlen], by omega, by omega, by omega, Or.inr rfl, ?_⟩
        exact hset
      · obtain ⟨bits1, pos1, he, hl1, hlt, hle, hle2, hor, hget⟩ :=
          ih (bit + 1) (bits.set pos (if data &&& (1 <<< (7 - bit)) ≠ 0 then 255 else 0)) (pos + 1)
            (by simp [hlen]) (by omega) hk
        refine ⟨bits1, pos1, he, hl1, by omega, hle, by omega, ?_, ?_⟩
        · rcases hor with h | h
          · exact Or.inl h
          · exact Or.inr (by omega)
        · intro p
          rw [hget p]
          have hs := hset p
          unfold bit_value at hs
          by_cases h1 : pos + 1 ≤ p ∧ p < pos1
          · have h2 : pos ≤ p ∧ p < pos1 := by omega
            have h3 : bit + 1 + (p - (pos + 1)) = bit + (p - pos) := by omega
            simp only [h1, h2, and_self, if_true, h3]
          · rw [if_neg h1, hs]
            by_cases h4 : pos ≤ p ∧ p < pos + 1
            · have h5 : pos ≤ p ∧ p < pos1 := by omega
              simp only [h4, h5, and_self, if_true, bit_value]
            · have h5 : ¬ (pos ≤ p ∧ p < pos1) := by omega
              simp only [h4, h5, if_false]

theorem unpack_while_total (total : Nat) (htot : total < UINT_MOD) :
    ∀ (fuel : Nat) (fd : List Nat) (data : Nat) (bits : List Nat) (pos : Nat),
      bits.length = total → pos ≤ total → total - pos ≤ fuel →
      ∃ out, unpack_while total fuel fd data bits pos = some out ∧ out.length = total := by
  intro fuel
  induction fuel with
  | zero =>
    intro fd data bits pos hlen hpos hfuel
    have : ¬ pos < total := by omega
    exact ⟨bits, by simp [unpack_while, this], hlen⟩
  | succ fuel ih =>
    intro fd data bits pos hlen hpos hfuel
    unfold unpack_while
    by_cases hlt : pos < total
    · simp only [hlt, if_true]
      obtain ⟨bits1, pos1, he, hl1, hlt1, hle1, _, _, _⟩ :=
        unpack_for_spec total (match (read fd 1).1 with | b :: _ => b | [] => data) htot 8 0 bits pos
          hlen hlt (by decide)
      rw [he]
      exact ih _ _ bits1 pos1 hl1 hle1 (by omega)
    · simp only [hlt, if_false]
      exact ⟨bits, rfl, hlen⟩

theorem u32_at_store (fd old : List Nat) (n k : Nat) (hn : n ≤ fd.length) (hk : k + 4 ≤ n) :
    u32_at (store (read fd n).1 old) k = u32_at fd k := by
  have hl : (fd.take n).length = n := by simp [List.length_take]; omega
  have hg : ∀ t, t < 4 → (fd.take n ++ old.drop (fd.take n).length)[k + t]? = fd[k + t]? := by
    intro t ht
    rw [List.getElem?_append_left (by omega), List.getElem?_take_of_lt (by omega)]
  have h0 := hg 0 (by decide)
  have h1 := hg 1 (by decide)
  have h2 := hg 2 (by decide)
  have h3 := hg 3 (by decide)
  simp only [Nat.add_zero] at h0
  simp only [u32_at, store, read, List.getD_eq_getElem?_getD, h0, h1, h2, h3]

theorem u32_at_drop (fd : List Nat) (m k : Nat) : u32_at (fd.drop m) k = u32_at fd (m + k) := by
  simp only [u32_at, List.getD_eq_getElem?_getD, List.getElem?_drop, Nat.add_assoc]

/-! ## C6 -/

theorem gr_loadFont_opened (fs : String → Option (List Nat)) (malloc_ok : Nat → Bool)
    (lv : LoadLocals) (fontName : String) (file : List Nat)
    (hopen : fs fontName = some file
      ∨ (fs fontName = none ∧ fontName.utf8ByteSize + 16 ≤ 128
          ∧ fs ("/res/fonts/" ++ fontName ++ ".dat") = some file)) :
    ∃ bits, gr_loadFont fs malloc_ok lv fontName
      = if umul (u32_at (store (read file 4).1 (le_bytes lv.width)) 0)
            (u32_at (store (read (read file 4).2 4).1 (le_bytes lv.height)) 0) ≠ 0
          ∧ malloc_ok (umul (u32_at (store (read file 4).1 (le_bytes lv.width)) 0)
            (u32_at (store (read (read file 4).2 4).1 (le_bytes lv.height)) 0)) = false
        then none
        else some ⟨some {
          texture := ⟨u32_at (store (read file 4).1 (le_bytes lv.width)) 0,
            u32_at (store (read (read file 4).2 4).1 (le_bytes lv.height)) 0,
            u32_at (store (read file 4).1 (le_bytes lv.width)) 0, bits, .GGL_PIXEL_FORMAT_A_8⟩
          offset := fun i =>
            if i = 96 then u32_at (store (read file 4).1 (le_bytes lv.width)) 0
            else if i < 96 then
              u32_at (store (read (read (read file 4).2 4).2 (4 * 96)).1 (List.replicate (4 * 97) 0))
                (4 * i)
            else 0
          cheight := u32_at (store (read (read file 4).2 4).1 (le_bytes lv.height)) 0
          ascent := usub (u32_at (store (read (read file 4).2 4).1 (le_bytes lv.height)) 0) 2 },
          2⟩ := by
  have hopened : (match fs fontName with
      | some fd => some (some fd)
      | none =>
        if fontName.utf8ByteSize + 16 ≤ 128 then some (fs ("/res/fonts/" ++ fontName ++ ".dat"))
        else none) = some (some file) := by
    rcases hopen with h | ⟨h1, h2, h3⟩
    · rw [h]
    · rw [h1]
      simp only [h2, if_true, h3]
  have htot : umul (u32_at (store (read file 4).1 (le_bytes lv.width)) 0)
      (u32_at (store (read (read file 4).2 4).1 (le_bytes lv.height)) 0) < UINT_MOD := by
    unfold umul
    exact Nat.mod_lt _ (by decide)
  obtain ⟨out, hout, _⟩ := unpack_while_total _ htot
    (umul (u32_at (store (read file 4).1 (le_bytes lv.width)) 0)
      (u32_at (store (read (read file 4).2 4).1 (le_bytes lv.height)) 0))
    (read (read (read file 4).2 4).2 (4 * 96)).2 lv.data
    (List.replicate (umul (u32_at (store (read file 4).1 (le_bytes lv.width)) 0)
      (u32_at (store (read (read file 4).2 4).1 (le_bytes lv.height)) 0)) 0) 0
    (by simp) (by omega) (by omega)
  refine ⟨out, ?_⟩
  unfold gr_loadFont
  simp only [hopened]
  rw [hout]

theorem gr_loadFont_opened_not_null (fs : String → Option (List Nat)) (malloc_ok : Nat → Bool)
    (lv : LoadLocals) (fontName : String) (file : List Nat)
    (hopen : fs fontName = some file
      ∨ (fs fontName = none ∧ fontName.utf8ByteSize + 16 ≤ 128
          ∧ fs ("/res/fonts/" ++ fontName ++ ".dat") = some file))
    (r : LoadResult) (hr : gr_loadFont fs malloc_ok lv fontName = some r) :
    r.font ≠ none ∧ r.allocations = 2 := by
  obtain ⟨bits, hb⟩ := gr_loadFont_opened fs malloc_ok lv fontName file hopen
  rw [hb] at hr
  split at hr
  · cases hr
  · cases hr
    exact ⟨by simp, rfl⟩

/-! ## C8 -/

/-- C8, as stated, fails on a malformed header: the file `short` has 8 of the 392
header bytes, and `gr_loadFont` still returns a font, after two allocations. -/
theorem short_header_still_loads :
    short_header_fs "short" = some [0, 0, 0, 0, 0, 0, 0, 0]
      ∧ (gr_loadFont short_header_fs (fun _ => true) ⟨0, 0, 0⟩ "short").map
          (fun r => (r.font.isSome, r.allocations)) = some (true, 2) := by
  refine ⟨by decide, by decide⟩

/-- C8, amended: for a name whose fallback path fits the 128-byte buffer,
`gr_loadFont` returns `NULL` and allocates nothing when neither the direct path
nor `/res/fonts/<name>.dat` opens, and it returns `NULL` in no other case: the
header is not checked, so that a call that returns for a file that opened
returns a font, after two allocations, however few bytes the file holds. -/
theorem gr_loadFont_fails_only_when_no_path_opens (fs : String → Option (List Nat))
    (malloc_ok : Nat → Bool) (lv : LoadLocals) (fontName : String)
    (hname : fontName.utf8ByteSize + 16 ≤ 128) :
    (fs fontName = none ∧ fs ("/res/fonts/" ++ fontName ++ ".dat") = none →
        gr_loadFont fs malloc_ok lv fontName = some ⟨none, 0⟩)
      ∧ (∀ r, gr_loadFont fs malloc_ok lv fontName = some r →
          ¬ (fs fontName = none ∧ fs ("/res/fonts/" ++ fontName ++ ".dat") = none) →
          r.font ≠ none ∧ r.allocations = 2) := by
  constructor
  · rintro ⟨h1, h2⟩
    unfold gr_loadFont
    simp only [h1, hname, if_true, h2]
  · intro r hr h
    cases h1 : fs fontName with
    | some file =>
      exact gr_loadFont_opened_not_null fs malloc_ok lv fontName file (Or.inl h1) r hr
    | none =>
      cases h2 : fs ("/res/fonts/" ++ fontName ++ ".dat") with
      | none => exact absurd ⟨h1, h2⟩ h
      | some file =>
        exact gr_loadFont_opened_not_null fs malloc_ok lv fontName file
          (Or.inr ⟨h1, hname, h2⟩) r hr

theorem gr_loadFont_fails_only_when_no_path_opens_witness :
    "missing".utf8ByteSize + 16 ≤ 128
      ∧ gr_loadFont short_header_fs (fun _ => true) ⟨0, 0, 0⟩ "missing" = some ⟨none, 0⟩ :=
  ⟨by decide,
    (gr_loadFont_fails_only_when_no_path_opens short_header_fs (fun _ => true) ⟨0, 0, 0⟩
      "missing" (by decide)).1 ⟨by decide, by decide⟩⟩

/-! ## C9 -/

/-- C9, as stated, fails for both decoders: the file `dec` loads into a font with
`offset[0] = 5 > offset[1] = 0`, and the embedded font of width 100 and cell
width 1 gets `offset[96] = 96` while its texture is 100 wide. -/
theorem offsets_not_monotone_and_sentinel_off :
    (gr_loadFont decreasing_offsets_fs (fun _ => true) ⟨0, 0, 0⟩ "dec").map
        (fun r => r.font.map (fun g => (g.offset 0, g.offset 1))) = some (some (5, 0))
      ∧ (gr_init_font ⟨100, 1, 1, 1, [0]⟩ (fun _ => 0)).map
          (fun g => (g.offset 96, g.texture.width)) = some (96, 100) := by
  constructor <;> decide

/-- C9, amended. Embedded font: `offset[i] = i * cwidth` (32-bit), so the table
is non-decreasing when `96 * cwidth < 2^32`, and `offset[96]` equals the texture
width exactly when `font.width = 96 * cwidth`. Loaded font: every font that
`gr_loadFont` returns for the file that opened has `offset[96]` equal to the
texture width, and `offset[0..95]` are the header words unchecked, so that for
a file with a whole header the table is non-decreasing exactly when the 96
header words are and the last one is at most `width`; when no allocation
fails, the file that opened does yield a font. -/
theorem font_offset_table_properties (font : EmbeddedFont) (heap : Nat → Nat) (g : GRFont)
    (hg : gr_init_font font heap = some g)
    (fs : String → Option (List Nat)) (malloc_ok : Nat → Bool) (lv : LoadLocals)
    (fontName : String) (file : List Nat)
    (hopen : fs fontName = some file
      ∨ (fs fontName = none ∧ fontName.utf8ByteSize + 16 ≤ 128
          ∧ fs ("/res/fonts/" ++ fontName ++ ".dat") = some file)) :
    (∀ i < 97, g.offset i = umul i font.cwidth)
      ∧ (96 * font.cwidth < UINT_MOD → ∀ i < 96, g.offset i ≤ g.offset (i + 1))
      ∧ (g.offset 96 = g.texture.width ↔ font.width = umul 96 font.cwidth)
      ∧ (∀ r g2, gr_loadFont fs malloc_ok lv fontName = some r → r.font = some g2 →
          r.allocations = 2
            ∧ g2.offset 96 = g2.texture.width
            ∧ (392 ≤ file.length →
                (∀ i < 96, g2.offset i = u32_at file (8 + 4 * i))
                  ∧ g2.texture.width = u32_at file 0
                  ∧ ((∀ i < 96, g2.offset i ≤ g2.offset (i + 1))
                      ↔ ((∀ i < 95, u32_at file (8 + 4 * i) ≤ u32_at file (8 + 4 * (i + 1)))
                          ∧ u32_at file (8 + 4 * 95) ≤ u32_at file 0))))
      ∧ ((∀ n, malloc_ok n = true) → ∃ g2, gr_loadFont fs malloc_ok lv fontName
          = some ⟨some g2, 2⟩) := by
  have hgo : g.offset = (fun element => if element < 97 then umul element font.cwidth else 0)
      ∧ g.texture.width = font.width := by
    unfold gr_init_font at hg
    cases hr : rle_loop font.rundata (malloc heap (umul font.width font.height)) 0 with
    | none => simp [hr] at hg
    | some bits =>
      simp only [hr, Option.some.injEq] at hg
      subst hg
      exact ⟨rfl, rfl⟩
  obtain ⟨hoffs, hwidth⟩ := hgo
  have h1 : ∀ i < 97, g.offset i = umul i font.cwidth := by
    intro i hi
    rw [hoffs]
    simp only [hi, if_true]
  refine ⟨h1, ?_, ?_, ?_, ?_⟩
  · intro hsmall i hi
    rw [h1 i (by omega), h1 (i + 1) (by omega)]
    have e1 : i * font.cwidth < UINT_MOD :=
      Nat.lt_of_le_of_lt (Nat.mul_le_mul_right _ (by omega)) hsmall
    have e2 : (i + 1) * font.cwidth < UINT_MOD :=
      Nat.lt_of_le_of_lt (Nat.mul_le_mul_right _ (by omega)) hsmall
    unfold umul
    rw [Nat.mod_eq_of_lt e1, Nat.mod_eq_of_lt e2]
    exact Nat.mul_le_mul_right _ (by omega)
  · rw [h1 96 (by omega), hwidth]
    exact eq_comm
  · intro r g2 hr hfont
    obtain ⟨bits, hb⟩ := gr_loadFont_opened fs malloc_ok lv fontName file hopen
    rw [hb] at hr
    split at hr
    · cases hr
    cases hr
    simp only [Option.some.injEq] at hfont
    subst hfont
    refine ⟨rfl, ?_, ?_⟩
    · simp
    · intro hhdr
      have hw : u32_at (store (read file 4).1 (le_bytes lv.width)) 0 = u32_at file 0 :=
        u32_at_store file _ 4 0 (by omega) (by omega)
      have hoff : ∀ i < 96,
          u32_at (store (read (read (read file 4).2 4).2 (4 * 96)).1 (List.replicate (4 * 97) 0))
              (4 * i) = u32_at file (8 + 4 * i) := by
        intro i hi
        rw [u32_at_store _ _ (4 * 96) (4 * i) (by simp [read]; omega) (by omega)]
        simp only [read, u32_at_drop]
        congr 1
        omega
      have hval : ∀ i < 96, (if i = 96 then u32_at (store (read file 4).1 (le_bytes lv.width)) 0
          else if i < 96 then
            u32_at (store (read (read (read file 4).2 4).2 (4 * 96)).1 (List.replicate (4 * 97) 0))
              (4 * i)
          else 0) = u32_at file (8 + 4 * i) := by
        intro i hi
        have h96 : i ≠ 96 := by omega
        simp only [h96, hi, if_true, if_false]
        exact hoff i hi
      refine ⟨hval, hw, ?_⟩
      simp only
      constructor
      · intro hmono
        constructor
        · intro i hi
          have := hmono i (by omega)
          rw [hval i (by omega), hval (i + 1) (by omega)] at this
          exact this
        · have := hmono 95 (by omega)
          rw [hval 95 (by omega)] at this
          simpa [hw] using this
      · rintro ⟨hm, hlast⟩ i hi
        by_cases h95 : i = 95
        · subst h95
          rw [hval 95 (by omega)]
          simpa [hw] using hlast
        · rw [hval i (by omega), hval (i + 1) (by omega)]
          exact hm i (by omega)
  · intro hall
    obtain ⟨bits, hb⟩ := gr_loadFont_opened fs malloc_ok lv fontName file hopen
    rw [hb]
    simp only [hall, Bool.true_eq_false, and_false, if_false]
    exact ⟨_, rfl⟩

theorem font_offset_table_properties_witness :
    gr_init_font ⟨192, 3, 2, 3, [0xff, 0xff, 0xff, 0xff, 0xc4, 0]⟩ (fun _ => 0)
        = some example_font_decoded
      ∧ (example_fs "tiny" = none ∧ "tiny".utf8ByteSize + 16 ≤ 128
          ∧ example_fs ("/res/fonts/" ++ "tiny" ++ ".dat") = some example_font_file)
      ∧ (96 * 2 < UINT_MOD → ∀ i < 96,
          example_font_decoded.offset i ≤ example_font_decoded.offset (i + 1)) := by
  have hg : gr_init_font ⟨192, 3, 2, 3, [0xff, 0xff, 0xff, 0xff, 0xc4, 0]⟩ (fun _ => 0)
      = some example_font_decoded := rfl
  exact ⟨hg, by decide,
    (font_offset_table_properties ⟨192, 3, 2, 3, [0xff, 0xff, 0xff, 0xff, 0xc4, 0]⟩ (fun _ => 0)
      example_font_decoded hg example_fs (fun _ => true) ⟨0, 0, 0⟩ "tiny" example_font_file
      (Or.inr (by decide))).2.1⟩

/-! ## The initialised display state and gr_flip -/

theorem memset_length (p : List Nat) (pos v n : Nat) (q : List Nat)
    (h : memset p pos v n = some q) : q.length = p.length ∧ pos + n ≤ p.length := by
  unfold memset at h
  by_cases hb : pos + n ≤ p.length
  · simp only [hb, if_true, Option.some.injEq] at h
    subst h
    have := splice_length p (List.replicate n v) pos (by simpa using hb)
    simp only [List.length_replicate] at this
    exact ⟨this, hb⟩
  · simp [hb] at h

theorem gr_init_initialises (env : InitEnv) (st0 st : GrState)
    (h : gr_init env st0 = some (0, st)) (hy : ∀ fd vi bits, env.fb0 = .mapped fd vi bits →
      vi.yres < UINT_MOD) : Initialised st := by
  unfold gr_init at h
  cases hf : gr_init_font env.font env.heap with
  | none => simp [hf] at h
  | some f =>
    simp only [hf] at h
    by_cases ht : env.tty0.map (fun t => t.2) = some false
    · simp only [ht, if_true, Option.map_eq_some', Prod.mk.injEq] at h
      obtain ⟨_, _, hneg, _⟩ := h
      omega
    · simp only [ht, if_false] at h
      cases hfb : env.fb0 with
      | failed vi =>
        simp only [hfb, Option.map_eq_some', Prod.mk.injEq] at h
        obtain ⟨_, _, hneg, _⟩ := h
        omega
      | mapped fd vi bits =>
        simp only [hfb] at h
        cases hfill : get_framebuffer_fill vi bits with
        | none => simp [hfill] at h
        | some r =>
          obtain ⟨fb, bits2⟩ := r
          simp only [hfill, Option.some.injEq, Prod.mk.injEq, true_and] at h
          unfold get_framebuffer_fill at hfill
          have hn : umul (umul vi.yres vi.xres_virtual) vi.bits_per_pixel / 8 = frame_bytes vi := by
            unfold frame_bytes umul
            rw [Nat.mul_comm vi.yres]
          rw [hn] at hfill
          cases hm1 : memset bits 0 0 (frame_bytes vi) with
          | none => simp [hm1] at hfill
          | some bits1 =>
            simp only [hm1] at hfill
            cases hm2 : memset bits1 (frame_bytes vi) 0 (frame_bytes vi) with
            | none => simp [hm2] at hfill
            | some b2 =>
              simp only [hm2, Option.some.injEq, Prod.mk.injEq] at hfill
              obtain ⟨hfbeq, hbeq⟩ := hfill
              have hl1 := memset_length _ _ _ _ _ hm1
              have hl2 := memset_length _ _ _ _ _ hm2
              subst h
              subst hfbeq
              subst hbeq
              refine ⟨?_, ?_, ?_, ?_, ?_, ?_, ?_⟩
              · simp [set_active_framebuffer]
              · simp [set_active_framebuffer]
              · simp [set_active_framebuffer]
              · simp [set_active_framebuffer, frame_bytes]
              · simp only [set_active_framebuffer, frame_bytes] at *
                simp
                omega
              · simp [set_active_framebuffer, frame_bytes, get_memory_surface, malloc]
              · simp only [set_active_framebuffer]
                simp
                exact hy fd vi bits hfb

/-- C7 at `padded_display` (`xres_virtual = 2 > xres = 1`): `gr_get_surface`
returns 0 and a surface of the same width, height, stride and format whose 4
data bytes are the first 2 bytes of the composition surface followed by what the
fresh block held (here zeros), not the 4 bytes `1, 2, 3, 4` of the composition
surface: only `xres * yres * bits_per_pixel / 8` bytes are copied. -/
theorem gr_get_surface_copies_visible_bytes_only :
    Initialised padded_display
      ∧ padded_display.vi.xres ≤ padded_display.vi.xres_virtual
      ∧ padded_display.gr_mem_surface = ⟨1, 1, 2, [1, 2, 3, 4], .GGL_PIXEL_FORMAT_RGB_565⟩
      ∧ gr_get_surface padded_display (fun _ => 0)
          = some (0, ⟨1, 1, 2, [1, 2, 0, 0], .GGL_PIXEL_FORMAT_RGB_565⟩) := by
  refine ⟨by decide, by decide, rfl, by decide⟩

/-! ## C10 -/

/-- C10, as stated, fails after `gr_exit`: `gr_init` from the start state returns
0, `gr_exit` leaves the rasteriser context bound (its four initial calls are
still there), and a `gr_blit` afterwards issues its seven calls to it. -/
theorem gr_blit_after_gr_exit_still_draws :
    (gr_init example_env gr_state_start).map (fun r => r.1) = some 0
      ∧ ((gr_init example_env gr_state_start).bind (fun r => gr_exit r.2)).map
          (fun s => s.gr_context.map List.length) = some (some 4)
      ∧ (((gr_init example_env gr_state_start).bind (fun r => gr_exit r.2)).bind
          (fun s => gr_blit s none 0 0 1 1 0 0)).map (fun s => s.gr_context.map (List.drop 4))
        = some (some
            [.bindTexture none,
             .texEnvi .GGL_TEXTURE_ENV .GGL_TEXTURE_ENV_MODE .GGL_REPLACE,
             .texGeni .GGL_S .GGL_TEXTURE_GEN_MODE .GGL_ONE_TO_ONE,
             .texGeni .GGL_T .GGL_TEXTURE_GEN_MODE .GGL_ONE_TO_ONE,
             .enable .GGL_TEXTURE_2D,
             .texCoord2i 0 0,
             .recti 0 0 1 1]) := by
  refine ⟨by decide, by decide, by decide⟩

/-- C10, amended: in a display state with no rasterisation context `gr_blit` and
`gr_watermark` issue no call, change no state and do not fail; `gr_exit` leaves
the context as it is, so that after `gr_exit` each of `gr_fill`, `gr_text`,
`gr_color`, `gr_blit` and `gr_watermark` does to the rasteriser exactly what it
does before it. -/
theorem drawing_without_context_and_after_exit (st st1 : GrState)
    (source : Option GGLSurface) (sx sy w h dx dy x y : Int) (s : List Int)
    (pFont : Option GRFont) (r g b a : Nat) (hexit : gr_exit st = some st1) :
    (st.gr_context = none →
        gr_blit st source sx sy w h dx dy = some st
          ∧ gr_watermark st source sx sy w h dx dy = some st)
      ∧ st1.gr_context = st.gr_context
      ∧ (gr_blit st1 source sx sy w h dx dy).map (fun t => t.gr_context)
          = (gr_blit st source sx sy w h dx dy).map (fun t => t.gr_context)
      ∧ (gr_watermark st1 source sx sy w h dx dy).map (fun t => t.gr_context)
          = (gr_watermark st source sx sy w h dx dy).map (fun t => t.gr_context)
      ∧ (gr_fill st1 x y w h).map (fun t => t.gr_context)
          = (gr_fill st x y w h).map (fun t => t.gr_context)
      ∧ (gr_color st1 r g b a).map (fun t => t.gr_context)
          = (gr_color st r g b a).map (fun t => t.gr_context)
      ∧ (gr_text st1 x y s pFont).map (fun t => (t.1, t.2.gr_context))
          = (gr_text st x y s pFont).map (fun t => (t.1, t.2.gr_context)) := by
  have hctx : st1.gr_context = st.gr_context ∧ st1.gr_font = st.gr_font := by
    unfold gr_exit at hexit
    by_cases hf : st.gr_mem_ptr = .freed
    · simp [hf] at hexit
    · simp only [hf, if_false, Option.some.injEq] at hexit
      subst hexit
      exact ⟨rfl, rfl⟩
  obtain ⟨hc, hfont⟩ := hctx
  refine ⟨?_, hc, ?_, ?_, ?_, ?_, ?_⟩
  · intro hnone
    simp [gr_blit, gr_watermark, hnone]
  · unfold gr_blit
    rw [hc]
    cases st.gr_context <;> simp [hc]
  · unfold gr_watermark
    rw [hc]
    cases st.gr_context <;> simp [hc]
  · unfold gr_fill
    rw [hc]
    cases st.gr_context <;> simp
  · unfold gr_color
    rw [hc]
    cases st.gr_context <;> simp
  · unfold gr_text
    rw [hc, hfont]
    cases st.gr_context with
    | none => simp
    | some gl =>
      cases (match pFont with | some f => some f | none => st.gr_font) with
      | none =>
        simp
        rfl
      | some f => simp

theorem drawing_without_context_and_after_exit_witness :
    gr_exit gr_state_start = some { gr_state_start with
        closed := [-1, -1], vt_requests := [(-1, .KD_TEXT)] }
      ∧ (gr_state_start.gr_context = none →
          gr_blit gr_state_start none 0 0 1 1 0 0 = some gr_state_start
            ∧ gr_watermark gr_state_start none 0 0 1 1 0 0 = some gr_state_start) :=
  ⟨rfl, (drawing_without_context_and_after_exit gr_state_start _ none 0 0 1 1 0 0 0 0 [] none
    0 0 0 0 rfl).1⟩

end Minui
